import Mathlib

/-!
Verification of the wengine coordination core (src/lib.rs): a controller
(EngineMain) and a worker (EngineWorker) exchanging 2-slot envelopes over a
message transport, a frame pacer (Timer), and a per-frame event queue.

The embedding is shallow:
  * a JsValue slot of a posted 2-element array is modelled by the inductive
    type JsVal: null, a string, an OffscreenCanvas handle (abstracted to a
    numeric id), or a serde-serialized application value (abstracted to the
    typed value itself, since the core only requires round-trip identity);
  * f64 clock arithmetic is modelled by exact rationals; the Rust
    f64::round (half away from zero, hence half-up on the positive values
    occurring here) becomes roundHalfUp, and the positive f64-to-usize cast
    becomes Int.floor followed by Int.toNat;
  * the message listeners (closures passed to gloo EventListener) become
    state-transition functions; unwrap_throw panics become Except errors;
  * async control flow becomes explicit sequencing over the list of
    messages delivered to a context, in delivery order.
-/

namespace Wengine

/-- A JsValue occupying one slot of a posted 2-element array. -/
inductive JsVal (T : Type) where
  | null : JsVal T
  | jstr : String → JsVal T
  | canvas : Nat → JsVal T
  | data : T → JsVal T
deriving DecidableEq

/-- The wire unit: the 2-element js_sys::Array posted by every send in the
    source, read back as slots 0 and 1 on receipt. -/
abbrev Envelope (T : Type) := JsVal T × JsVal T

/-- Half-up rounding on rationals; Rust f64::round rounds half away from
    zero, which agrees with half-up on the positive values arising here. -/
def roundHalfUp (q : ℚ) : ℤ := ⌊q + 1 / 2⌋

/-- The frame pacer, src/lib.rs lines 51-54.  The source shadows the name:
    the field frame_rate holds the period in milliseconds. -/
structure Timer where
  last : ℚ
  frame_rate : ℕ
deriving DecidableEq

/-- Timer::new, src/lib.rs lines 56-67: period = round((1/rate)*1000) as
    usize, then assert period > 0 (modelled as an error); last is an entry
    reading of performance.now(), passed in as now. -/
def Timer.new (frame_rate : ℕ) (now : ℚ) : Except String Timer :=
  if 0 < (roundHalfUp (1 / (frame_rate : ℚ) * 1000)).toNat then
    .ok { last := now, frame_rate := (roundHalfUp (1 / (frame_rate : ℚ) * 1000)).toNat }
  else
    .error "assertion failed: frame_rate > 0"

/-- Timer::next, src/lib.rs lines 69-82: tt and now2 are the two
    performance.now() readings taken on entry (lines 73-74); the returned
    Option is the requested sleep in whole milliseconds (none = no sleep);
    afterwards last is assigned tt (line 81). -/
def Timer.next (t : Timer) (tt now2 : ℚ) : Option ℕ × Timer :=
  (if 0 < (t.frame_rate : ℚ) - (now2 - t.last) then
     some (⌊(t.frame_rate : ℚ) - (now2 - t.last)⌋.toNat)
   else none,
   { last := tt, frame_rate := t.frame_rate })

/-- The ready control envelope posted by EngineWorker::new, src/lib.rs
    lines 356-362: slot 0 the string "ready", slot 1 null. -/
def readyEnvelope {T : Type} : Envelope T := (.jstr "ready", .null)

/-- The close control envelope posted by the EngineWorker Drop impl,
    src/lib.rs lines 293-299: slot 0 the string "close", slot 1 null. -/
def closeEnvelope {T : Type} : Envelope T := (.jstr "close", .null)

/-- The surface-transfer envelope posted by EngineMain::new, src/lib.rs
    lines 194-201: slot 0 the OffscreenCanvas, slot 1 null, sent with
    post_message_with_transfer so the canvas moves rather than copies. -/
def transferEnvelope {T : Type} (c : Nat) : Envelope T := (.canvas c, .null)

/-- The envelope posted by EngineMain::send_event, src/lib.rs lines
    218-226: slot 0 null, slot 1 the serde-serialized value. -/
def sendEventEnvelope {T : Type} (v : T) : Envelope T := (.null, .data v)

/-- The envelope posted by EngineWorker::post_message, src/lib.rs lines
    378-387: slot 0 null, slot 1 the serde-serialized value. -/
def postMessageEnvelope {T : Type} (v : T) : Envelope T := (.null, .data v)

/-- The emissions of one run of the EngineWorker Drop impl, src/lib.rs
    lines 287-301: a single close envelope. -/
def EngineWorker.dropEmits {T : Type} : List (Envelope T) := [closeEnvelope]

/-- State of the controller listener closure and its channels, EngineMain::new
    src/lib.rs lines 150-186: fs and shutdown_fs are the two oneshot senders
    (true while still un-taken), the fired flags record whether the matching
    receiver has a value, ks is the unbounded mpsc buffer of inbound payloads.
    shutdown_fire_count instruments how often the shutdown oneshot was sent. -/
structure MainState (K : Type) where
  fs : Bool
  ready_fired : Bool
  shutdown_fs : Bool
  shutdown_fired : Bool
  shutdown_fire_count : ℕ
  ks : List K
deriving DecidableEq

/-- The state of the controller listener right after construction,
    src/lib.rs lines 150-156. -/
def mainInit {K : Type} : MainState K :=
  { fs := true, ready_fired := false, shutdown_fs := true,
    shutdown_fired := false, shutdown_fire_count := 0, ks := [] }

/-- The control-slot half of the controller listener, src/lib.rs lines
    166-180: a string slot "ready" or "close" fires the matching oneshot if
    its sender is still available; a null or non-string slot is skipped
    (as_string returns None). -/
def mainControlStep {K : Type} (st : MainState K) (m : JsVal K) : MainState K :=
  match m with
  | .jstr s =>
      if s = "ready" then
        if st.fs then { st with fs := false, ready_fired := true } else st
      else if s = "close" then
        if st.shutdown_fs then
          { st with shutdown_fs := false, shutdown_fired := true,
                    shutdown_fire_count := st.shutdown_fire_count + 1 }
        else st
      else st
  | _ => st

/-- The payload-slot half of the controller listener, src/lib.rs lines
    182-184: a non-null payload slot is deserialized (into_serde; only a
    serialized value of type K deserializes, anything else is an
    unwrap_throw panic) and pushed onto the mpsc buffer. -/
def mainPayloadStep {K : Type} (st : MainState K) (k : JsVal K) :
    Except String (MainState K) :=
  match k with
  | .null => .ok st
  | .data v => .ok { st with ks := st.ks ++ [v] }
  | _ => .error "into_serde failed"

/-- The controller message listener, src/lib.rs lines 157-186: reads the
    two slots of the delivered array and runs the control step then the
    payload step. -/
def mainHandler {K : Type} (st : MainState K) (env : Envelope K) :
    Except String (MainState K) :=
  mainPayloadStep (mainControlStep st env.1) env.2

/-- Runs the controller listener over a list of deliveries in order. -/
def runMainHandler {K : Type} (st : MainState K) :
    List (Envelope K) → Except String (MainState K)
  | [] => .ok st
  | e :: rest =>
      match mainHandler st e with
      | .ok st' => runMainHandler st' rest
      | .error err => .error err

/-- EngineMain::join, src/lib.rs lines 214-216: awaits the shutdown
    oneshot; some () when the receiver resolves (a close was observed,
    whether before or after the await started), none when it never does. -/
def EngineMain.join {K : Type} (st : MainState K) : Option Unit :=
  if st.shutdown_fired then some () else none

/-- An observable event in an execution of EngineMain::new: a delivery
    handled by the listener, or the surface-transfer send of src/lib.rs
    lines 198-201. -/
inductive MainEvent (K : Type) where
  | deliver : Envelope K → MainEvent K
  | transferSend : MainEvent K
deriving DecidableEq

/-- Execution trace of EngineMain::new, src/lib.rs lines 143-209, over the
    list of messages delivered to the controller: each delivery runs the
    listener; when a delivery resolves the ready oneshot (the await at line
    188), the continuation posts the surface transfer before the next
    delivery is handled. -/
def mainNewGo {K : Type} (st : MainState K) :
    List (Envelope K) → Except String (List (MainEvent K) × MainState K)
  | [] => .ok ([], st)
  | e :: rest =>
      match mainHandler st e with
      | .error err => .error err
      | .ok st' =>
          match mainNewGo st' rest with
          | .error err => .error err
          | .ok (tr, stf) =>
              if !st.ready_fired && st'.ready_fired then
                .ok (.deliver e :: .transferSend :: tr, stf)
              else
                .ok (.deliver e :: tr, stf)

/-- EngineMain::new from the initial listener state. -/
def EngineMain.new {K : Type} (msgs : List (Envelope K)) :
    Except String (List (MainEvent K) × MainState K) :=
  mainNewGo mainInit msgs

/-- State of the worker listener closure during and after
    EngineWorker::new, src/lib.rs lines 319-353: fs is the surface oneshot
    sender (true while un-taken), surface_fired whether it was sent, canvas
    the shared cell, queue the shared event queue. -/
structure WorkerNewState (T : Type) where
  fs : Bool
  surface_fired : Bool
  canvas : Option Nat
  queue : List T
deriving DecidableEq

/-- The worker listener state right after construction, src/lib.rs lines
    319-325. -/
def workerInit {T : Type} : WorkerNewState T :=
  { fs := true, surface_fired := false, canvas := none, queue := [] }

/-- The slot-0 half of the worker listener, src/lib.rs lines 338-345: a
    non-null slot 0 must cast (dyn_into) to an OffscreenCanvas or the
    listener panics; the canvas is stored in the shared cell and the
    surface oneshot fires if its sender is still available. -/
def workerSurfaceStep {T : Type} (st : WorkerNewState T) (off : JsVal T) :
    Except String (WorkerNewState T) :=
  match off with
  | .null => .ok st
  | .canvas c =>
      if st.fs then
        .ok { st with canvas := some c, fs := false, surface_fired := true }
      else
        .ok { st with canvas := some c }
  | _ => .error "dyn_into OffscreenCanvas failed"

/-- The slot-1 half of the worker listener, src/lib.rs lines 347-352: a
    non-null payload is deserialized (only a serialized value of type T
    deserializes; anything else is an unwrap_throw panic) and pushed onto
    the shared queue. -/
def workerQueueStep {T : Type} (st : WorkerNewState T) (pay : JsVal T) :
    Except String (WorkerNewState T) :=
  match pay with
  | .null => .ok st
  | .data v => .ok { st with queue := st.queue ++ [v] }
  | _ => .error "into_serde failed"

/-- The worker message listener, src/lib.rs lines 330-353. -/
def workerHandler {T : Type} (st : WorkerNewState T) (env : Envelope T) :
    Except String (WorkerNewState T) :=
  match workerSurfaceStep st env.1 with
  | .ok st' => workerQueueStep st' env.2
  | .error err => .error err

/-- Runs the worker listener over a list of deliveries in order. -/
def runWorkerHandler {T : Type} (st : WorkerNewState T) :
    List (Envelope T) → Except String (WorkerNewState T)
  | [] => .ok st
  | e :: rest =>
      match workerHandler st e with
      | .ok st' => runWorkerHandler st' rest
      | .error err => .error err

/-- The worker component, src/lib.rs lines 278-285 (the listener handle and
    the PhantomData field carry no state). -/
structure EngineWorker (T : Type) where
  queue : List T
  buffer : List T
  timer : Timer
  canvas : Option Nat
deriving DecidableEq

/-- EngineWorker::new, src/lib.rs lines 315-376: installs the listener,
    posts the ready envelope, awaits the surface oneshot over the delivered
    messages msgs, then builds the timer (reading the clock at now) and the
    worker value.  Returns the posted envelopes paired with some worker
    when the surface arrived, or none when the await never resolves. -/
def EngineWorker.new (T : Type) (time : ℕ) (now : ℚ) (msgs : List (Envelope T)) :
    Except String (List (Envelope T) × Option (EngineWorker T)) :=
  match runWorkerHandler (workerInit (T := T)) msgs with
  | .error err => .error err
  | .ok st =>
      if st.surface_fired then
        match Timer.new time now with
        | .error err => .error err
        | .ok t =>
            .ok ([readyEnvelope],
                 some { queue := st.queue, buffer := [], timer := t, canvas := st.canvas })
      else
        .ok ([readyEnvelope], none)

/-- A message delivered to the worker listener after EngineWorker::new has
    returned: the same closure runs, with the surface oneshot sender
    already consumed, mutating the shared cells. -/
def EngineWorker.onMessage {T : Type} (w : EngineWorker T) (env : Envelope T) :
    Except String (EngineWorker T) :=
  match workerHandler { fs := false, surface_fired := true,
                        canvas := w.canvas, queue := w.queue } env with
  | .ok st => .ok { w with canvas := st.canvas, queue := st.queue }
  | .error err => .error err

/-- The queue push performed by the worker listener on a payload delivery,
    src/lib.rs line 350. -/
def EngineWorker.pushEvent {T : Type} (w : EngineWorker T) (v : T) : EngineWorker T :=
  { w with queue := w.queue ++ [v] }

/-- EngineWorker::next, src/lib.rs lines 393-398: awaits the timer (tt and
    now2 are the clock readings its entry takes), clears the private
    buffer, moves the entire shared queue into it, and returns the buffer
    contents (the returned slice), the requested sleep, and the new state. -/
def EngineWorker.next {T : Type} (w : EngineWorker T) (tt now2 : ℚ) :
    List T × Option ℕ × EngineWorker T :=
  ((w.queue, (w.timer.next tt now2).1,
    { w with timer := (w.timer.next tt now2).2, buffer := w.queue, queue := [] }))

/-- The canvas accessor, src/lib.rs lines 306-308 (named canvas in the
    source; the structure field keeps that name, so the method is
    getCanvas here): unwrap_throw on the shared cell. -/
def EngineWorker.getCanvas {T : Type} (w : EngineWorker T) : Except String Nat :=
  match w.canvas with
  | some c => .ok c
  | none => .error "unwrap_throw on empty canvas cell"

/-- EventData, src/lib.rs lines 266-270, with the DOM element and the raw
    event abstracted to numeric ids. -/
structure EventData where
  elem : Nat
  event : Nat
  event_type : String
deriving DecidableEq

/-- The closure installed by EngineMain::register_event, src/lib.rs lines
    240-257: maps the raw event through func, serializes the result, and
    posts an envelope with a null slot 0. -/
def registerEventCallback {T : Type} (func : EventData → T) (e : EventData) :
    Envelope T := (.null, .data (func e))

/-- Dispatch model of the external listener attachment (gloo EventListener)
    at its interface, spec section 6: while the handle returned by
    register_event is alive (the Bool of each pair), each raw input event of
    the registered kind runs the installed closure once; a detached listener
    (destroyed handle) and events of other kinds run nothing. -/
def dispatchEvents {T : Type} (func : EventData → T) (event_type : String)
    (events : List (EventData × Bool)) : List (Envelope T) :=
  events.filterMap fun p =>
    if p.2 && (p.1.event_type = event_type) then
      some (registerEventCallback func p.1)
    else none

/-- Exactly one of the two slots of an envelope is non-null. -/
def exactlyOneNonNull {T : Type} (env : Envelope T) : Prop :=
  (env.1 = .null ∧ env.2 ≠ .null) ∨ (env.1 ≠ .null ∧ env.2 = .null)

/-- Verification invariant of the controller shutdown oneshot: the sender
    flag and the fired flag flip together, and the instrumented send count
    is 0 before the flip and 1 after it. -/
def mainShutdownInv {K : Type} (st : MainState K) : Prop :=
  st.shutdown_fs = !st.shutdown_fired ∧
  (st.shutdown_fs = true → st.shutdown_fire_count = 0) ∧
  (st.shutdown_fired = true → st.shutdown_fire_count = 1)

/-- C6: with elapsed = now2 - last computed at entry, next sleeps for
    floor(period - elapsed) milliseconds when elapsed < period and performs
    no suspension at all when elapsed >= period. -/
theorem wengine_C6 (t : Timer) (tt now2 : ℚ) :
    (t.next tt now2).1 =
      if now2 - t.last < (t.frame_rate : ℚ) then
        some (⌊(t.frame_rate : ℚ) - (now2 - t.last)⌋.toNat)
      else none := by
  by_cases hc : now2 - t.last < (t.frame_rate : ℚ)
  · rw [if_pos hc]
    simp only [Timer.next]
    rw [if_pos (sub_pos.mpr hc)]
  · rw [if_neg hc]
    simp only [Timer.next]
    rw [if_neg (by simpa using hc)]

/-- C4 counterexample: with last = 0, period = 10 and both entry clock
    readings equal to 0, next requests a 10 ms suspension, yet stores
    last = 0, the entry reading.  A monotone clock sampled after a 10 ms
    suspension that began at time 0 reads at least 0 + 10, so the stored
    value cannot be a reading taken after the sleep. -/
theorem wengine_C4_counterexample :
    (Timer.next ⟨0, 10⟩ 0 0).1 = some 10 ∧
    (Timer.next ⟨0, 10⟩ 0 0).2.last = 0 ∧
    ¬ ((0 : ℚ) + 10 ≤ (Timer.next ⟨0, 10⟩ 0 0).2.last) := by
  have h10 : ⌊(10 : ℚ) - (0 - 0)⌋ = (10 : ℤ) := by norm_num
  refine ⟨?_, rfl, by norm_num [Timer.next]⟩
  simp [Timer.next, h10]

/-- C4 amended: every completed call to next updates last exactly once,
    setting it to the first clock reading sampled at entry, before the
    possible suspension (and leaves the period unchanged). -/
theorem wengine_C4_amended (t : Timer) (tt now2 : ℚ) :
    (t.next tt now2).2.last = tt ∧
    (t.next tt now2).2.frame_rate = t.frame_rate :=
  ⟨rfl, rfl⟩

/-- C5: the period is round(1000/rate) ms with round-half-up:
    rate 60 gives 17, rate 1000 gives 1, rate 2000 gives 1 (0.5 rounds up,
    so it is accepted), and for every rate >= 1 construction fails exactly
    when the rounded period is zero. -/
theorem wengine_C5 (rate : ℕ) (now : ℚ) (h : 1 ≤ rate) :
    Timer.new 60 0 = .ok ⟨0, 17⟩ ∧
    Timer.new 1000 0 = .ok ⟨0, 1⟩ ∧
    Timer.new 2000 0 = .ok ⟨0, 1⟩ ∧
    ((∃ e, Timer.new rate now = .error e) ↔ roundHalfUp (1000 / (rate : ℚ)) = 0) := by
  refine ⟨?_, ?_, ?_, ?_⟩
  · norm_num [Timer.new, roundHalfUp]
    decide
  · norm_num [Timer.new, roundHalfUp]
  · norm_num [Timer.new, roundHalfUp]
  have hrw : (1 / (rate : ℚ) * 1000) = 1000 / (rate : ℚ) := by ring
  have hnonneg : 0 ≤ roundHalfUp (1000 / (rate : ℚ)) := by
    have hq : (0 : ℚ) ≤ 1000 / (rate : ℚ) := by positivity
    have : (0 : ℤ) = ⌊(0 : ℚ) + 1 / 2⌋ := by norm_num
    unfold roundHalfUp
    calc (0 : ℤ) = ⌊(0 : ℚ) + 1 / 2⌋ := this
      _ ≤ ⌊1000 / (rate : ℚ) + 1 / 2⌋ := by
          exact Int.floor_le_floor (by linarith)
  constructor
  · rintro ⟨e, he⟩
    rw [Timer.new, hrw] at he
    by_cases hp : 0 < (roundHalfUp (1000 / (rate : ℚ))).toNat
    · rw [if_pos hp] at he
      exact absurd he (by simp)
    · omega
  · intro hz
    refine ⟨"assertion failed: frame_rate > 0", ?_⟩
    rw [Timer.new, hrw, hz]
    simp

/-- C5 witness: rate 2001 satisfies the hypothesis, and at it the final
    conjunct is inhabited. -/
theorem wengine_C5_witness :
    (1 ≤ 2001) ∧
    ((∃ e, Timer.new 2001 (0 : ℚ) = .error e) ↔ roundHalfUp (1000 / (2001 : ℚ)) = 0) :=
  ⟨by norm_num, (wengine_C5 2001 0 (by norm_num)).2.2.2⟩

/-- C9: every envelope posted by any operation of the two engines — the
    ready signal, the close signal, the surface transfer, send_event,
    post_message, and the register_event callback — has exactly one
    non-null slot: control signals and the transferred surface travel with
    a null payload slot, and serialized payloads travel with a null slot 0,
    so the both-slots-populated case never occurs on the wire. -/
theorem wengine_C9 (T : Type) (v : T) (c : Nat) (func : EventData → T) (e : EventData) :
    exactlyOneNonNull (readyEnvelope (T := T)) ∧
    exactlyOneNonNull (closeEnvelope (T := T)) ∧
    exactlyOneNonNull (transferEnvelope (T := T) c) ∧
    exactlyOneNonNull (sendEventEnvelope v) ∧
    exactlyOneNonNull (postMessageEnvelope v) ∧
    exactlyOneNonNull (registerEventCallback func e) ∧
    (readyEnvelope (T := T)).2 = .null ∧
    (closeEnvelope (T := T)).2 = .null ∧
    (transferEnvelope (T := T) c).2 = .null ∧
    (sendEventEnvelope v).1 = .null ∧
    (postMessageEnvelope v).1 = .null ∧
    (registerEventCallback func e).1 = .null := by
  simp [exactlyOneNonNull, readyEnvelope, closeEnvelope, transferEnvelope,
        sendEventEnvelope, postMessageEnvelope, registerEventCallback]

/-- C8: while the handle returned by register_event is alive, each raw
    input event of the registered kind runs the mapper exactly once and
    posts exactly one envelope with a null control slot and the serialized
    mapped value in the payload slot, in event order; events firing after
    the handle was destroyed (detached listener) post nothing. -/
theorem wengine_C8 (T : Type) (func : EventData → T) (event_type : String)
    (events : List (EventData × Bool)) (e : EventData) :
    dispatchEvents func event_type events =
      (events.filter fun p => p.2 && (p.1.event_type = event_type)).map
        (fun p => registerEventCallback func p.1) ∧
    dispatchEvents func event_type (events.filter fun p => !p.2) = [] ∧
    registerEventCallback func e = (.null, .data (func e)) := by
  refine ⟨?_, ?_, rfl⟩
  · induction events with
    | nil => rfl
    | cons p rest ih =>
        by_cases hp2 : p.2 = true <;> by_cases hpk : p.1.event_type = event_type <;>
          simpa [dispatchEvents, List.filterMap_cons, List.filter_cons, hp2, hpk]
            using ih
  · simp only [dispatchEvents, List.filterMap_eq_nil_iff, List.mem_filter]
    intro a ha
    have h2 : a.2 = false := by simpa using ha.2
    simp [h2]

/-- Folding the listener queue push over a list of payload values appends
    them to the shared queue in order. -/
theorem queue_foldl_pushEvent {T : Type} (vs : List T) :
    ∀ w : EngineWorker T, (vs.foldl EngineWorker.pushEvent w).queue = w.queue ++ vs := by
  induction vs with
  | nil => intro w; simp
  | cons v rest ih =>
      intro w
      calc (List.foldl EngineWorker.pushEvent (w.pushEvent v) rest).queue
          = (w.pushEvent v).queue ++ rest := ih (w.pushEvent v)
        _ = w.queue ++ (v :: rest) := by simp [EngineWorker.pushEvent]

/-- C3: pushing N payload events into an empty shared queue and then
    calling next returns exactly those N values in push order and leaves
    the shared queue empty; a subsequent next with no intervening pushes
    returns the empty slice; events pushed after a drain took the contents
    are returned, all of them and nothing else, by the following drain.
    The last conjunct grounds pushEvent in the worker listener: a payload
    delivery is exactly a push. -/
theorem wengine_C3 (T : Type) (w : EngineWorker T) (vs ws : List T) (v : T)
    (tt now2 tt2 now3 : ℚ) (h : w.queue = []) :
    ((vs.foldl EngineWorker.pushEvent w).next tt now2).1 = vs ∧
    ((vs.foldl EngineWorker.pushEvent w).next tt now2).2.2.queue = [] ∧
    (((vs.foldl EngineWorker.pushEvent w).next tt now2).2.2.next tt2 now3).1 = [] ∧
    ((ws.foldl EngineWorker.pushEvent
        ((vs.foldl EngineWorker.pushEvent w).next tt now2).2.2).next tt2 now3).1 = ws ∧
    EngineWorker.onMessage w (sendEventEnvelope v) = .ok (w.pushEvent v) := by
  refine ⟨?_, rfl, rfl, ?_, ?_⟩
  · show (vs.foldl EngineWorker.pushEvent w).queue = vs
    rw [queue_foldl_pushEvent, h]
    simp
  · show (ws.foldl EngineWorker.pushEvent
        ((vs.foldl EngineWorker.pushEvent w).next tt now2).2.2).queue = ws
    rw [queue_foldl_pushEvent]
    simp [EngineWorker.next]
  · rfl

/-- C3 witness: the concrete scenario of the spec — events 1, 2, 3 pushed
    before the frame boundary are returned by the next drain. -/
theorem wengine_C3_witness :
    ((⟨[], [], ⟨0, 17⟩, some 1⟩ : EngineWorker ℕ).queue = []) ∧
    ((([1, 2, 3] : List ℕ).foldl EngineWorker.pushEvent
        ⟨[], [], ⟨0, 17⟩, some 1⟩).next 0 0).1 = [1, 2, 3] :=
  ⟨rfl, (wengine_C3 ℕ ⟨[], [], ⟨0, 17⟩, some 1⟩ [1, 2, 3] [4] 5 0 0 0 0 rfl).1⟩

/-- C7 counterexample: the controller listener state after the first ready
    signal has the ready oneshot sender consumed (fs = false); delivering
    a second ready envelope returns normally with the state unchanged — a
    silent no-op, not a fatal assertion (no error is produced). -/
theorem wengine_C7_counterexample :
    mainHandler (K := ℕ) ⟨false, true, true, false, 0, []⟩ readyEnvelope =
      .ok ⟨false, true, true, false, 0, []⟩ ∧
    ¬ ∃ err, mainHandler (K := ℕ) ⟨false, true, true, false, 0, []⟩ readyEnvelope =
      .error err := by
  have h1 : mainHandler (K := ℕ) ⟨false, true, true, false, 0, []⟩ readyEnvelope =
      .ok ⟨false, true, true, false, 0, []⟩ := rfl
  refine ⟨h1, ?_⟩
  rintro ⟨err, herr⟩
  rw [h1] at herr
  exact Except.noConfusion herr

/-- C7 amended: after a one-shot handshake signal has been fulfilled (its
    oneshot sender consumed), a duplicate ready or close control message is
    silently ignored by the controller listener, and a duplicate surface
    delivery at the worker silently overwrites the canvas cell without
    firing the surface signal again; none of these is a fatal assertion. -/
theorem wengine_C7_amended (K T : Type) (st : MainState K) (wst : WorkerNewState T)
    (c : Nat) (h1 : st.fs = false) (h2 : st.shutdown_fs = false)
    (h3 : wst.fs = false) :
    mainHandler st readyEnvelope = .ok st ∧
    mainHandler st closeEnvelope = .ok st ∧
    workerHandler wst (transferEnvelope c) = .ok { wst with canvas := some c } ∧
    Except.map (fun s => s.surface_fired) (workerHandler wst (transferEnvelope c)) =
      .ok wst.surface_fired := by
  refine ⟨?_, ?_, ?_, ?_⟩
  · simp [mainHandler, mainControlStep, mainPayloadStep, readyEnvelope, h1]
  · simp [mainHandler, mainControlStep, mainPayloadStep, closeEnvelope, h2]
  · simp [workerHandler, workerSurfaceStep, workerQueueStep, transferEnvelope, h3]
  · simp [workerHandler, workerSurfaceStep, workerQueueStep, transferEnvelope, h3,
          Except.map]

/-- C7 amended witness: a concrete post-handshake state on each side. -/
theorem wengine_C7_witness :
    ((⟨false, true, false, true, 1, []⟩ : MainState ℕ).fs = false) ∧
    mainHandler (K := ℕ) ⟨false, true, false, true, 1, []⟩ closeEnvelope =
      .ok ⟨false, true, false, true, 1, []⟩ :=
  ⟨rfl, (wengine_C7_amended ℕ ℕ ⟨false, true, false, true, 1, []⟩
      ⟨false, true, some 1, []⟩ 2 rfl rfl rfl).2.1⟩

/-- One worker listener step preserves the invariant that a fired surface
    signal implies a populated canvas cell. -/
theorem workerHandler_fired_canvas {T : Type} {st st' : WorkerNewState T}
    {env : Envelope T} (h : workerHandler st env = .ok st')
    (hp : st.surface_fired = true → st.canvas.isSome = true) :
    st'.surface_fired = true → st'.canvas.isSome = true := by
  obtain ⟨m, k⟩ := env
  cases hfs : st.fs <;> cases m <;> cases k <;>
    simp_all [workerHandler, workerSurfaceStep, workerQueueStep] <;>
    (subst h; simp_all)

/-- One worker listener step never empties a populated canvas cell. -/
theorem workerHandler_canvas_isSome {T : Type} {st st' : WorkerNewState T}
    {env : Envelope T} (h : workerHandler st env = .ok st')
    (hc : st.canvas.isSome = true) : st'.canvas.isSome = true := by
  obtain ⟨m, k⟩ := env
  cases hfs : st.fs <;> cases m <;> cases k <;>
    simp_all [workerHandler, workerSurfaceStep, workerQueueStep] <;>
    (subst h; simp_all)

/-- Running the worker listener preserves the fired-implies-canvas
    invariant. -/
theorem runWorkerHandler_fired_canvas {T : Type} :
    ∀ (msgs : List (Envelope T)) (st st' : WorkerNewState T),
      runWorkerHandler st msgs = .ok st' →
      (st.surface_fired = true → st.canvas.isSome = true) →
      (st'.surface_fired = true → st'.canvas.isSome = true) := by
  intro msgs
  induction msgs with
  | nil =>
      intro st st' h hp
      simp only [runWorkerHandler] at h
      cases h
      exact hp
  | cons e rest ih =>
      intro st st' h hp
      simp only [runWorkerHandler] at h
      cases heq : workerHandler st e with
      | error err => rw [heq] at h; exact absurd h (by simp)
      | ok st1 =>
          rw [heq] at h
          exact ih st1 st' h (workerHandler_fired_canvas heq hp)

/-- C10: whenever EngineWorker::new returns a worker, its canvas cell
    holds some surface; the unwrap inside the canvas accessor is therefore
    unreachable (it returns that surface without panicking); and no later
    delivery handled by the listener can empty the cell. -/
theorem wengine_C10 (T : Type) (time : ℕ) (now : ℚ) (msgs : List (Envelope T))
    (emits : List (Envelope T)) (w : EngineWorker T)
    (h : EngineWorker.new T time now msgs = .ok (emits, some w)) :
    w.canvas.isSome = true ∧
    (∃ c, w.canvas = some c ∧ w.getCanvas = .ok c) ∧
    (∀ env w', w.onMessage env = .ok w' → w'.canvas.isSome = true) := by
  simp only [EngineWorker.new] at h
  cases hrun : runWorkerHandler (workerInit (T := T)) msgs with
  | error err => simp only [hrun] at h; exact Except.noConfusion h
  | ok st =>
      simp only [hrun] at h
      by_cases hf : st.surface_fired = true
      · rw [if_pos hf] at h
        cases ht : Timer.new time now with
        | error err => simp only [ht] at h; exact Except.noConfusion h
        | ok t =>
            simp only [ht, Except.ok.injEq, Prod.mk.injEq,
              Option.some.injEq] at h
            obtain ⟨-, hw⟩ := h
            have hcan : st.canvas.isSome = true :=
              runWorkerHandler_fired_canvas msgs _ st hrun (by simp [workerInit]) hf
            have hwcan : w.canvas = st.canvas := by rw [← hw]
            refine ⟨by rw [hwcan]; exact hcan, ?_, ?_⟩
            · obtain ⟨c, hc⟩ := Option.isSome_iff_exists.mp hcan
              exact ⟨c, by rw [hwcan, hc], by simp [EngineWorker.getCanvas, hwcan, hc]⟩
            · intro env w' hmsg
              simp only [EngineWorker.onMessage] at hmsg
              cases heq : workerHandler
                  { fs := false, surface_fired := true,
                    canvas := w.canvas, queue := w.queue } env with
              | error err => simp only [heq] at hmsg; exact Except.noConfusion hmsg
              | ok st2 =>
                  simp only [heq, Except.ok.injEq] at hmsg
                  have : st2.canvas.isSome = true :=
                    workerHandler_canvas_isSome heq (by simpa [hwcan] using hcan)
                  rw [← hmsg]
                  simpa using this
      · rw [if_neg hf] at h
        exact absurd h (by simp)

/-- Timer construction at rate 60 from clock reading 0, evaluated. -/
theorem Timer.new_sixty : Timer.new 60 0 = .ok ⟨0, 17⟩ := by
  norm_num [Timer.new, roundHalfUp]
  decide

/-- C10 witness: delivering the surface with id 5 makes new return a
    worker whose canvas cell holds it. -/
theorem wengine_C10_witness :
    EngineWorker.new ℕ 60 0 [transferEnvelope 5] =
      .ok ([readyEnvelope], some ⟨[], [], ⟨0, 17⟩, some 5⟩) ∧
    (⟨[], [], ⟨0, 17⟩, some 5⟩ : EngineWorker ℕ).canvas.isSome = true := by
  have hrun : runWorkerHandler (workerInit (T := ℕ)) [transferEnvelope 5] =
      .ok ⟨false, true, some 5, []⟩ := rfl
  have h : EngineWorker.new ℕ 60 0 [transferEnvelope 5] =
      .ok ([readyEnvelope], some ⟨[], [], ⟨0, 17⟩, some 5⟩) := by
    simp [EngineWorker.new, hrun, Timer.new_sixty]
  exact ⟨h, (wengine_C10 ℕ 60 0 [transferEnvelope 5] [readyEnvelope]
    ⟨[], [], ⟨0, 17⟩, some 5⟩ h).1⟩

/-- The payload half of the controller listener never touches the oneshot
    bookkeeping. -/
theorem mainPayloadStep_fields {K : Type} {st st' : MainState K} {k : JsVal K}
    (h : mainPayloadStep st k = .ok st') :
    st'.fs = st.fs ∧ st'.ready_fired = st.ready_fired ∧
    st'.shutdown_fs = st.shutdown_fs ∧ st'.shutdown_fired = st.shutdown_fired ∧
    st'.shutdown_fire_count = st.shutdown_fire_count := by
  cases k <;> simp only [mainPayloadStep] at h <;>
    first
      | exact Except.noConfusion h
      | (cases h; exact ⟨rfl, rfl, rfl, rfl, rfl⟩)

/-- The control half of the controller listener never resets the ready
    receiver. -/
theorem mainControlStep_ready_mono {K : Type} (st : MainState K) (m : JsVal K)
    (h : st.ready_fired = true) : (mainControlStep st m).ready_fired = true := by
  cases m <;> simp only [mainControlStep] <;>
    first
      | exact h
      | (split_ifs <;> simp [h])

/-- A controller listener step never resets the ready receiver. -/
theorem mainHandler_ready_mono {K : Type} {st st' : MainState K}
    {env : Envelope K} (h : mainHandler st env = .ok st')
    (hf : st.ready_fired = true) : st'.ready_fired = true := by
  have hp := mainPayloadStep_fields (k := env.2) h
  rw [hp.2.1]
  exact mainControlStep_ready_mono st env.1 hf

/-- The only delivery that can flip the ready receiver from unresolved to
    resolved carries the ready control string in slot 0. -/
theorem mainHandler_fire_ready {K : Type} {st st' : MainState K}
    {env : Envelope K} (h : mainHandler st env = .ok st')
    (h0 : st.ready_fired = false) (h1 : st'.ready_fired = true) :
    env.1 = JsVal.jstr "ready" := by
  have hp := mainPayloadStep_fields (k := env.2) h
  rw [hp.2.1] at h1
  obtain ⟨m, k⟩ := env
  cases m with
  | null => simp only [mainControlStep] at h1; exact absurd h1 (by simp [h0])
  | canvas c => simp only [mainControlStep] at h1; exact absurd h1 (by simp [h0])
  | data v => simp only [mainControlStep] at h1; exact absurd h1 (by simp [h0])
  | jstr s =>
      by_cases hs : s = "ready"
      · rw [hs]
      · simp only [mainControlStep, if_neg hs] at h1
        split_ifs at h1 <;> simp_all

/-- Once the ready oneshot has resolved, the rest of an EngineMain::new
    execution never emits another transfer send. -/
theorem mainNewGo_no_transfer {K : Type} :
    ∀ (msgs : List (Envelope K)) (st : MainState K) (tr : List (MainEvent K))
      (stf : MainState K), st.ready_fired = true →
      mainNewGo st msgs = .ok (tr, stf) → MainEvent.transferSend ∉ tr := by
  intro msgs
  induction msgs with
  | nil =>
      intro st tr stf hst h
      simp only [mainNewGo, Except.ok.injEq, Prod.mk.injEq] at h
      rw [← h.1]
      simp
  | cons e rest ih =>
      intro st tr stf hst h
      simp only [mainNewGo] at h
      cases heq : mainHandler st e with
      | error err => simp only [heq] at h; exact Except.noConfusion h
      | ok st1 =>
          simp only [heq] at h
          cases hgo : mainNewGo st1 rest with
          | error err => simp only [hgo] at h; exact Except.noConfusion h
          | ok p =>
              obtain ⟨tr1, stf1⟩ := p
              simp only [hgo] at h
              rw [if_neg (by simp [hst])] at h
              simp only [Except.ok.injEq, Prod.mk.injEq] at h
              rw [← h.1]
              have hst1 : st1.ready_fired = true := mainHandler_ready_mono heq hst
              have := ih st1 tr1 stf1 hst1 hgo
              simp [this]

/-- In an EngineMain::new execution started before the ready oneshot has
    resolved, every transfer send in the trace is preceded by the delivery
    of a ready control envelope. -/
theorem mainNewGo_transfer_after_ready {K : Type} :
    ∀ (msgs : List (Envelope K)) (st : MainState K) (tr : List (MainEvent K))
      (stf : MainState K) (pre post : List (MainEvent K)),
      st.ready_fired = false →
      mainNewGo st msgs = .ok (tr, stf) →
      tr = pre ++ MainEvent.transferSend :: post →
      ∃ e, MainEvent.deliver e ∈ pre ∧ e.1 = JsVal.jstr "ready" := by
  intro msgs
  induction msgs with
  | nil =>
      intro st tr stf pre post hst h hsplit
      simp only [mainNewGo, Except.ok.injEq, Prod.mk.injEq] at h
      rw [← h.1] at hsplit
      exact absurd hsplit.symm (by simp)
  | cons e rest ih =>
      intro st tr stf pre post hst h hsplit
      simp only [mainNewGo] at h
      cases heq : mainHandler st e with
      | error err => simp only [heq] at h; exact Except.noConfusion h
      | ok st1 =>
          simp only [heq] at h
          cases hgo : mainNewGo st1 rest with
          | error err => simp only [hgo] at h; exact Except.noConfusion h
          | ok p =>
              obtain ⟨tr1, stf1⟩ := p
              simp only [hgo] at h
              by_cases hf : st1.ready_fired = true
              · rw [if_pos (by simp [hst, hf])] at h
                simp only [Except.ok.injEq, Prod.mk.injEq] at h
                have htr : pre ++ MainEvent.transferSend :: post =
                    MainEvent.deliver e :: MainEvent.transferSend :: tr1 := by
                  rw [← hsplit, h.1]
                have hready : e.1 = JsVal.jstr "ready" :=
                  mainHandler_fire_ready heq hst hf
                cases pre with
                | nil =>
                    simp only [List.nil_append, List.cons.injEq] at htr
                    exact absurd htr.1 (by simp)
                | cons p0 pre' =>
                    simp only [List.cons_append, List.cons.injEq] at htr
                    exact ⟨e, by rw [htr.1]; exact List.mem_cons_self _ _, hready⟩
              · rw [if_neg (by simp [hf])] at h
                simp only [Except.ok.injEq, Prod.mk.injEq] at h
                have htr : pre ++ MainEvent.transferSend :: post =
                    MainEvent.deliver e :: tr1 := by
                  rw [← hsplit, h.1]
                have hst1 : st1.ready_fired = false := by
                  cases hb : st1.ready_fired
                  · rfl
                  · exact absurd hb hf
                cases pre with
                | nil =>
                    simp only [List.nil_append, List.cons.injEq] at htr
                    exact absurd htr.1 (by simp)
                | cons p0 pre' =>
                    simp only [List.cons_append, List.cons.injEq] at htr
                    obtain ⟨e', he'⟩ := ih st1 tr1 stf1 pre' post hst1 hgo htr.2.symm
                    exact ⟨e', List.mem_cons_of_mem _ he'.1, he'.2⟩

/-- C1: in every execution of EngineMain::new, the surface-transfer send
    occurs strictly after a ready control envelope has been delivered to
    the controller listener: any occurrence of the transfer in the trace
    has a ready delivery somewhere before it. -/
theorem wengine_C1 (K : Type) (msgs : List (Envelope K))
    (tr pre post : List (MainEvent K)) (stf : MainState K)
    (h : EngineMain.new msgs = .ok (tr, stf))
    (hsplit : tr = pre ++ MainEvent.transferSend :: post) :
    ∃ e, MainEvent.deliver e ∈ pre ∧ e.1 = JsVal.jstr "ready" :=
  mainNewGo_transfer_after_ready msgs mainInit tr stf pre post rfl h hsplit

/-- C1 witness: delivering just the ready envelope produces the trace
    whose transfer send is preceded by that ready delivery. -/
theorem wengine_C1_witness :
    EngineMain.new (K := ℕ) [readyEnvelope] =
      .ok ([.deliver readyEnvelope, .transferSend], ⟨false, true, true, false, 0, []⟩) ∧
    ∃ e, MainEvent.deliver e ∈ [MainEvent.deliver (readyEnvelope (T := ℕ))] ∧
      e.1 = JsVal.jstr "ready" :=
  ⟨rfl, wengine_C1 ℕ [readyEnvelope] [.deliver readyEnvelope, .transferSend]
    [.deliver readyEnvelope] [] ⟨false, true, true, false, 0, []⟩ rfl rfl⟩

/-- The initial controller state satisfies the shutdown oneshot invariant. -/
theorem mainInit_shutdown_inv {K : Type} : mainShutdownInv (mainInit (K := K)) := by
  simp [mainShutdownInv, mainInit]

/-- The control half of the controller listener preserves the shutdown
    oneshot invariant. -/
theorem mainControlStep_shutdown_inv {K : Type} (st : MainState K) (m : JsVal K)
    (hi : mainShutdownInv st) : mainShutdownInv (mainControlStep st m) := by
  obtain ⟨h1, h2, h3⟩ := hi
  cases m with
  | null => exact ⟨h1, h2, h3⟩
  | canvas c => exact ⟨h1, h2, h3⟩
  | data v => exact ⟨h1, h2, h3⟩
  | jstr s =>
      simp only [mainControlStep]
      split_ifs with hr hf hc hs
      · exact ⟨h1, h2, h3⟩
      · exact ⟨h1, h2, h3⟩
      · exact ⟨rfl, by simp, fun _ => by simp [h2 hs]⟩
      · exact ⟨h1, h2, h3⟩
      · exact ⟨h1, h2, h3⟩

/-- A controller listener step preserves the shutdown oneshot invariant. -/
theorem mainHandler_shutdown_inv {K : Type} {st st' : MainState K}
    {env : Envelope K} (h : mainHandler st env = .ok st')
    (hi : mainShutdownInv st) : mainShutdownInv st' := by
  have hp := mainPayloadStep_fields (k := env.2) h
  obtain ⟨c1, c2, c3⟩ := mainControlStep_shutdown_inv st env.1 hi
  refine ⟨?_, ?_, ?_⟩
  · rw [hp.2.2.1, hp.2.2.2.1]; exact c1
  · rw [hp.2.2.1, hp.2.2.2.2]; exact c2
  · rw [hp.2.2.2.1, hp.2.2.2.2]; exact c3

/-- A controller listener step never resets the shutdown receiver. -/
theorem mainHandler_shutdown_fired_mono {K : Type} {st st' : MainState K}
    {env : Envelope K} (h : mainHandler st env = .ok st')
    (hf : st.shutdown_fired = true) : st'.shutdown_fired = true := by
  have hp := mainPayloadStep_fields (k := env.2) h
  rw [hp.2.2.2.1]
  cases env.1 <;> simp only [mainControlStep] <;>
    first
      | exact hf
      | (split_ifs <;> simp [hf])

/-- Under the invariant, handling a close control envelope leaves the
    shutdown receiver resolved (it either fires now or had already fired). -/
theorem mainControlStep_close_fires {K : Type} (st : MainState K)
    (hi : mainShutdownInv st) :
    (mainControlStep st (JsVal.jstr "close")).shutdown_fired = true := by
  obtain ⟨h1, h2, h3⟩ := hi
  simp only [mainControlStep]
  rw [if_neg (by decide : ¬("close" = "ready")), if_pos (by trivial)]
  cases hsf : st.shutdown_fs with
  | true => simp [hsf]
  | false =>
      rw [hsf] at h1
      cases hfd : st.shutdown_fired with
      | true => simp [hsf, hfd]
      | false => rw [hfd] at h1; exact absurd h1 (by decide)

/-- Running the controller listener preserves the shutdown oneshot
    invariant. -/
theorem runMainHandler_shutdown_inv {K : Type} :
    ∀ (msgs : List (Envelope K)) (st st' : MainState K),
      runMainHandler st msgs = .ok st' → mainShutdownInv st →
      mainShutdownInv st' := by
  intro msgs
  induction msgs with
  | nil =>
      intro st st' h hi
      simp only [runMainHandler] at h
      cases h
      exact hi
  | cons e rest ih =>
      intro st st' h hi
      simp only [runMainHandler] at h
      cases heq : mainHandler st e with
      | error err => simp only [heq] at h; exact Except.noConfusion h
      | ok st1 =>
          rw [heq] at h
          exact ih st1 st' h (mainHandler_shutdown_inv heq hi)

/-- Running the controller listener never resets the shutdown receiver. -/
theorem runMainHandler_shutdown_fired_mono {K : Type} :
    ∀ (msgs : List (Envelope K)) (st st' : MainState K),
      runMainHandler st msgs = .ok st' → st.shutdown_fired = true →
      st'.shutdown_fired = true := by
  intro msgs
  induction msgs with
  | nil =>
      intro st st' h hf
      simp only [runMainHandler] at h
      cases h
      exact hf
  | cons e rest ih =>
      intro st st' h hf
      simp only [runMainHandler] at h
      cases heq : mainHandler st e with
      | error err => simp only [heq] at h; exact Except.noConfusion h
      | ok st1 =>
          rw [heq] at h
          exact ih st1 st' h (mainHandler_shutdown_fired_mono heq hf)

/-- Splitting a controller listener run at a list append. -/
theorem runMainHandler_append {K : Type} (l1 l2 : List (Envelope K)) :
    ∀ st : MainState K, runMainHandler st (l1 ++ l2) =
      match runMainHandler st l1 with
      | .ok st1 => runMainHandler st1 l2
      | .error err => .error err := by
  induction l1 with
  | nil => intro st; rfl
  | cons e rest ih =>
      intro st
      simp only [List.cons_append, runMainHandler]
      cases mainHandler st e with
      | ok st1 => exact ih st1
      | error err => rfl

/-- C2: the drop glue of an EngineWorker session emits exactly one close
    envelope; after any controller run that contains those emissions, the
    shutdown receiver is resolved, so join returns rather than hanging —
    also when the close was handled before join is called — and the
    shutdown oneshot was fulfilled exactly once; moreover no controller
    run from the initial state ever fulfills it more than once. -/
theorem wengine_C2 (K : Type) (pre post : List (Envelope K)) (stf : MainState K)
    (h : runMainHandler mainInit (pre ++ EngineWorker.dropEmits ++ post) = .ok stf) :
    EngineWorker.dropEmits (T := K) = [closeEnvelope] ∧
    stf.shutdown_fired = true ∧
    EngineMain.join stf = some () ∧
    stf.shutdown_fire_count = 1 ∧
    (∀ (msgs : List (Envelope K)) (st2 : MainState K),
      runMainHandler mainInit msgs = .ok st2 → st2.shutdown_fire_count ≤ 1) := by
  rw [List.append_assoc,
      runMainHandler_append pre (EngineWorker.dropEmits ++ post)] at h
  cases hpre : runMainHandler (mainInit (K := K)) pre with
  | error err => simp only [hpre] at h; exact Except.noConfusion h
  | ok st1 =>
      simp only [hpre] at h
      have hstep : runMainHandler st1 (EngineWorker.dropEmits ++ post) =
          runMainHandler (mainControlStep st1 (JsVal.jstr "close")) post := rfl
      rw [hstep] at h
      have hinv1 : mainShutdownInv st1 :=
        runMainHandler_shutdown_inv pre mainInit st1 hpre mainInit_shutdown_inv
      have hinv2 : mainShutdownInv (mainControlStep st1 (JsVal.jstr "close")) :=
        mainControlStep_shutdown_inv st1 _ hinv1
      have hfired2 : (mainControlStep st1 (JsVal.jstr "close")).shutdown_fired = true :=
        mainControlStep_close_fires st1 hinv1
      have hffinal : stf.shutdown_fired = true :=
        runMainHandler_shutdown_fired_mono post _ stf h hfired2
      have hinvf : mainShutdownInv stf :=
        runMainHandler_shutdown_inv post _ stf h hinv2
      refine ⟨rfl, hffinal, by simp [EngineMain.join, hffinal], hinvf.2.2 hffinal, ?_⟩
      intro msgs st2 h2
      have hi2 : mainShutdownInv st2 :=
        runMainHandler_shutdown_inv msgs mainInit st2 h2 mainInit_shutdown_inv
      cases hb : st2.shutdown_fs with
      | true => simp [hi2.2.1 hb]
      | false =>
          have h1 := hi2.1
          rw [hb] at h1
          cases hfd : st2.shutdown_fired with
          | false => rw [hfd] at h1; exact absurd h1 (by decide)
          | true => simp [hi2.2.2 hfd]

/-- C2 witness: the drop emission alone, delivered to a fresh controller,
    resolves the shutdown receiver with fire count one. -/
theorem wengine_C2_witness :
    runMainHandler (mainInit (K := ℕ)) ([] ++ EngineWorker.dropEmits ++ []) =
      .ok ⟨true, false, false, true, 1, []⟩ ∧
    (⟨true, false, false, true, 1, []⟩ : MainState ℕ).shutdown_fired = true :=
  ⟨rfl, (wengine_C2 ℕ [] [] ⟨true, false, false, true, 1, []⟩ rfl).2.1⟩

end Wengine
